import Mathlib

/-!
Verification of the comfort-scoring core of academix-confort-BACK.

The Python sources in `core/utils.py` and `core/services.py` are shallowly
embedded below.  Sensor values and scores are modelled as rationals (the
Python code only ever adds, subtracts and multiplies by decimal constants,
so the float computations coincide with exact rational arithmetic on all
inputs considered here), and timestamps as natural numbers (seconds).
-/

namespace Academix

/-- The five monitored parameters, with the French names used by the code. -/
inductive Param
  | temperature
  | humidite
  | bruit
  | luminosite
  | air
deriving DecidableEq, Repr

/-- A comfort-zone entry of the `THRESHOLDS` table: an optional lower bound
and an optional upper bound, mirroring the presence or absence of the
`'min'` / `'max'` keys in the Python dict. -/
structure Thresh where
  lo? : Option ℚ
  hi? : Option ℚ

/-- `THRESHOLDS` from `core/utils.py`. -/
def THRESHOLDS : Param → Thresh
  | .temperature => ⟨some 22, some 26⟩
  | .humidite    => ⟨some 40, some 60⟩
  | .bruit       => ⟨none, some 60⟩
  | .luminosite  => ⟨some 300, some 500⟩
  | .air         => ⟨none, some 1000⟩

/-- `WEIGHTS` from `core/utils.py`. -/
def WEIGHTS : Param → ℚ
  | .temperature => 0.25
  | .humidite    => 0.20
  | .air         => 0.25
  | .bruit       => 0.20
  | .luminosite  => 0.10

/-- `calculate_parameter_score` from `core/utils.py`. -/
def calculate_parameter_score (value : ℚ) (param : Param) : ℚ :=
  match THRESHOLDS param with
  | ⟨some lo, some hi⟩ =>
      if lo ≤ value ∧ value ≤ hi then 100
      else if value < lo then max 0 (100 - (lo - value) * 10)
      else max 0 (100 - (value - hi) * 10)
  | ⟨none, some hi⟩ =>
      if value ≤ hi then 100
      else max 0 (100 - (value - hi) * 10)
  | ⟨some lo, none⟩ =>
      if lo ≤ value then 100
      else max 0 (100 - (lo - value) * 10)
  | ⟨none, none⟩ => 0

/-- The dict of five per-parameter scores built by `collect_measurement`. -/
structure Scores where
  temperature : ℚ
  humidite : ℚ
  air : ℚ
  bruit : ℚ
  luminosite : ℚ

/-- `calculate_global_score` from `core/utils.py`. -/
def calculate_global_score (scores : Scores) : ℚ :=
  scores.temperature * WEIGHTS .temperature +
  scores.humidite * WEIGHTS .humidite +
  scores.air * WEIGHTS .air +
  scores.bruit * WEIGHTS .bruit +
  scores.luminosite * WEIGHTS .luminosite

/-- The `statut` values of the comfort index. -/
inductive Status
  | comfort
  | warning
  | danger
deriving DecidableEq, Repr

/-- `determine_status` from `core/utils.py`. -/
def determine_status (global_score : ℚ) : Status :=
  if global_score ≥ 70 then .comfort
  else if global_score ≥ 40 then .warning
  else .danger

/-- Spec-side predicate: the value lies inside the parameter's comfort zone
(the zone is given by the same `THRESHOLDS` table). -/
def inZone (param : Param) (value : ℚ) : Bool :=
  match THRESHOLDS param with
  | ⟨some lo, some hi⟩ => decide (lo ≤ value) && decide (value ≤ hi)
  | ⟨none, some hi⟩ => decide (value ≤ hi)
  | ⟨some lo, none⟩ => decide (lo ≤ value)
  | ⟨none, none⟩ => true

/-- Spec-side definition: the distance from a value to the nearest boundary
of the parameter's comfort zone. -/
def specDeviation (param : Param) (value : ℚ) : ℚ :=
  match THRESHOLDS param with
  | ⟨some lo, some hi⟩ => min |value - lo| |value - hi|
  | ⟨none, some hi⟩ => |value - hi|
  | ⟨some lo, none⟩ => |value - lo|
  | ⟨none, none⟩ => 0

/-! ## Alert engine (`generate_alerts` in `core/utils.py`) -/

/-- A raw measurement: the five sensor fields of the `Mesure` model. -/
structure Mesure where
  temperature : ℚ
  humidite : ℚ
  air : ℚ
  bruit : ℚ
  luminosite : ℚ

/-- The `niveau` values of an alert. -/
inductive Niveau
  | warning
  | danger
deriving DecidableEq, Repr

/-- An alert dict as built by `generate_alerts`. -/
structure Alerte where
  type : Param
  valeur : ℚ
  seuil : ℚ
  niveau : Niveau
  message : String
deriving DecidableEq, Repr

/-- French parameter name, as used for the dict keys and messages. -/
def paramName : Param → String
  | .temperature => "temperature"
  | .humidite => "humidite"
  | .bruit => "bruit"
  | .luminosite => "luminosite"
  | .air => "air"

/-- The value the `params` dict of `generate_alerts` associates to a key. -/
def paramValue (m : Mesure) : Param → ℚ
  | .temperature => m.temperature
  | .humidite => m.humidite
  | .air => m.air
  | .bruit => m.bruit
  | .luminosite => m.luminosite

/-- The f-string message of `generate_alerts`. -/
def alertMessage (param : Param) (value seuil : ℚ) : String :=
  "Valeur " ++ paramName param ++ " (" ++ toString value ++ ") hors seuil ("
    ++ toString seuil ++ ")"

/-- One loop iteration of `generate_alerts`: the candidate alert (if any)
for a single parameter, following the branch structure of the Python loop
body. -/
def alertFor (param : Param) (value : ℚ) : Option Alerte :=
  match THRESHOLDS param with
  | ⟨some lo, some hi⟩ =>
      if value < lo then
        some ⟨param, value, lo, if lo - 5 ≤ value then .warning else .danger,
          alertMessage param value lo⟩
      else if hi < value then
        some ⟨param, value, hi, if value ≤ hi + 5 then .warning else .danger,
          alertMessage param value hi⟩
      else none
  | ⟨none, some hi⟩ =>
      if hi < value then
        some ⟨param, value, hi, if value ≤ hi + 10 then .warning else .danger,
          alertMessage param value hi⟩
      else none
  | ⟨some lo, none⟩ =>
      if value < lo then
        some ⟨param, value, lo, if lo - 10 ≤ value then .warning else .danger,
          alertMessage param value lo⟩
      else none
  | ⟨none, none⟩ => none

/-- Iteration order of the `params` dict in `generate_alerts` (Python dicts
preserve insertion order). -/
def paramOrder : List Param := [.temperature, .humidite, .air, .bruit, .luminosite]

/-- `generate_alerts` from `core/utils.py`. -/
def generate_alerts (m : Mesure) : List Alerte :=
  paramOrder.filterMap (fun p => alertFor p (paramValue m p))

/-- The per-parameter scores dict built by `collect_measurement` in
`core/services.py`. -/
def scoresOf (m : Mesure) : Scores :=
  ⟨calculate_parameter_score m.temperature .temperature,
   calculate_parameter_score m.humidite .humidite,
   calculate_parameter_score m.air .air,
   calculate_parameter_score m.bruit .bruit,
   calculate_parameter_score m.luminosite .luminosite⟩

/-- Spec-side definition: the violated boundary recorded on an alert
(min if the value is below it, max if above). -/
def specSeuil (param : Param) (value : ℚ) : ℚ :=
  match THRESHOLDS param with
  | ⟨some lo, some hi⟩ => if value < lo then lo else hi
  | ⟨none, some hi⟩ => hi
  | ⟨some lo, none⟩ => lo
  | ⟨none, none⟩ => 0

/-- Spec-side definition: severity is warning within the tolerance band
beyond the violated boundary (5 units for range parameters, 10 for the
upper-bound-only parameters), danger outside it. -/
def specNiveau (param : Param) (value : ℚ) : Niveau :=
  match THRESHOLDS param with
  | ⟨some lo, some hi⟩ =>
      if value < lo then (if lo - value ≤ 5 then .warning else .danger)
      else (if value - hi ≤ 5 then .warning else .danger)
  | ⟨none, some hi⟩ => if value - hi ≤ 10 then .warning else .danger
  | ⟨some lo, none⟩ => if lo - value ≤ 10 then .warning else .danger
  | ⟨none, none⟩ => .warning

/-! ## Ingestion pipeline (`collect_measurement` in `core/services.py`) -/

/-- The request payload of the collect endpoint.  `salle_id?` is doubly
optional to mirror `data.get('salle_id', 1)`: `none` means the key is
absent (the code then defaults to 1), `some none` an explicit null, and
`some (some k)` a supplied room id.  The five sensor fields and the
timestamp are optional; a missing sensor field fails serializer
validation, a missing timestamp defaults to the current time. -/
structure InputData where
  salle_id? : Option (Option Nat)
  temperature? : Option ℚ
  humidite? : Option ℚ
  air? : Option ℚ
  bruit? : Option ℚ
  luminosite? : Option ℚ
  timestamp? : Option Nat

/-- The errors `collect_measurement` can surface: `ValueError` for a falsy
room id, 404 for an unknown room, serializer `ValidationError`, and a
storage-layer failure inside the transaction. -/
inductive IngestError
  | valueError
  | notFound
  | validationError
  | persistenceFailure
deriving DecidableEq, Repr

/-- A validated reading: room id, the five sensor values, timestamp. -/
structure ReadingRec where
  salle : Nat
  mesure : Mesure
  timestamp : Nat

/-- `data.get('salle_id', 1)`: the room id the code proceeds with. -/
def effective_salle (d : InputData) : Option Nat :=
  match d.salle_id? with
  | none => some 1
  | some v => v

/-- The `MesureSerializer` requirement that all five float fields are
supplied. -/
def mesureFields (d : InputData) : Option Mesure :=
  match d.temperature?, d.humidite?, d.air?, d.bruit?, d.luminosite? with
  | some t, some h, some a, some b, some l => some ⟨t, h, a, b, l⟩
  | _, _, _, _, _ => none

/-- The validation phase of `collect_measurement`, in the order of the
code: falsy `salle_id` raises `ValueError`, `get_object_or_404` raises 404
for an unknown room, then the serializer validates the five fields; the
timestamp defaults to `timezone.now()`. -/
def collect_validate (salles : List Nat) (now : Nat) (d : InputData) :
    Except IngestError ReadingRec :=
  match effective_salle d with
  | none => .error .valueError
  | some sid =>
    if sid = 0 then .error .valueError
    else if sid ∈ salles then
      match mesureFields d with
      | some m => .ok ⟨sid, m, d.timestamp?.getD now⟩
      | none => .error .validationError
    else .error .notFound

/-- A persisted `Mesure` row. -/
structure DBMesure where
  id : Nat
  salle : Nat
  mesure : Mesure
  timestamp : Nat

/-- A persisted `IndiceConfort` row. -/
structure DBIndice where
  mesure : Nat
  score_global : ℚ
  statut : Status
  scores : Scores
  timestamp : Nat

/-- A persisted `Alerte` row. -/
structure DBAlerte where
  mesure : Nat
  alerte : Alerte

/-- The database state the service reads and writes. -/
structure DB where
  salles : List Nat
  mesures : List DBMesure
  indices : List DBIndice
  alertes : List DBAlerte

/-- Where, if anywhere, the storage layer fails during the atomic block:
while writing the `Mesure`, the `IndiceConfort`, or the `i`-th alert. -/
inductive FailPoint
  | noFail
  | atMesure
  | atIndice
  | atAlerte (i : Nat)
deriving DecidableEq

/-- Whether an injected failure fires while persisting one of `n` alerts. -/
def alertFail : FailPoint → Nat → Bool
  | .atAlerte i, n => decide (i < n)
  | _, _ => false

/-- The body of the `with transaction.atomic():` block of
`collect_measurement`: persist the measurement, compute the scores, the
global score and the status, persist the comfort index, generate and
persist the alerts.  Returns `none` when the injected storage failure
fires inside the block; `transaction.atomic` then rolls the whole block
back. -/
def persist_steps (db : DB) (r : ReadingRec) (newId : Nat) (fp : FailPoint) :
    Option DB :=
  if fp = .atMesure then none
  else
    let db1 : DB :=
      { db with mesures := db.mesures ++ [⟨newId, r.salle, r.mesure, r.timestamp⟩] }
    let scores := scoresOf r.mesure
    let global_score := calculate_global_score scores
    let statut := determine_status global_score
    if fp = .atIndice then none
    else
      let db2 : DB :=
        { db1 with indices :=
            db1.indices ++ [⟨newId, global_score, statut, scores, r.timestamp⟩] }
      let alerts := generate_alerts r.mesure
      if alertFail fp alerts.length then none
      else some { db2 with alertes := db2.alertes ++ alerts.map (fun a => ⟨newId, a⟩) }

/-- `collect_measurement` from `core/services.py`: validation, then the
atomic persistence block.  Returns the database state visible afterwards
and the error surfaced, if any; on any error the state is the unchanged
input state (validation errors occur before the transaction, and a
failure inside the transaction rolls it back). -/
def collect_measurement (db : DB) (now newId : Nat) (d : InputData)
    (fp : FailPoint) : DB × Option IngestError :=
  match collect_validate db.salles now d with
  | .error e => (db, some e)
  | .ok r =>
    match persist_steps db r newId fp with
    | none => (db, some .persistenceFailure)
    | some db2 => (db2, none)

/-- The invariant that every measurement row has its comfort-index row. -/
def noDangling (db : DB) : Prop :=
  ∀ mm ∈ db.mesures, ∃ ic ∈ db.indices, ic.mesure = mm.id

/-! ## Evolution aggregator (`get_comfort_evolution` in `core/services.py`) -/

/-- An `IndiceConfort` row as read by the evolution query: timestamp plus
the six score columns. -/
structure IndiceRow where
  timestamp : Nat
  score_global : ℚ
  score_temperature : ℚ
  score_humidite : ℚ
  score_air : ℚ
  score_bruit : ℚ
  score_luminosite : ℚ

/-- `TruncHour` / `TruncDay`: truncate a timestamp to a multiple of the
granularity `g` (3600 for hour, 86400 for day). -/
def truncTo (g ts : Nat) : Nat := ts / g * g

/-- The SQL `Min` aggregate over one column of a group of rows. -/
def colMin (rows : List IndiceRow) (sel : IndiceRow → ℚ) : ℚ :=
  match rows with
  | [] => 0
  | r :: rs => rs.foldl (fun acc x => min acc (sel x)) (sel r)

/-- The SQL `Max` aggregate over one column of a group of rows. -/
def colMax (rows : List IndiceRow) (sel : IndiceRow → ℚ) : ℚ :=
  match rows with
  | [] => 0
  | r :: rs => rs.foldl (fun acc x => max acc (sel x)) (sel r)

/-- The SQL `Avg` aggregate over one column of a group of rows. -/
def colAvg (rows : List IndiceRow) (sel : IndiceRow → ℚ) : ℚ :=
  (rows.map sel).sum / (rows.length : ℚ)

/-- One step of selecting the row with the latest timestamp
(`order_by('-timestamp')[:1]`); on equal timestamps the earlier row is
kept, a deterministic rendering of the unspecified SQL tie-break. -/
def latestStep (acc : Option IndiceRow) (r : IndiceRow) : Option IndiceRow :=
  match acc with
  | none => some r
  | some b => if b.timestamp < r.timestamp then some r else some b

/-- The row with the latest timestamp among `rows`, if any. -/
def latestRec (rows : List IndiceRow) : Option IndiceRow :=
  rows.foldl latestStep none

/-- The rows of a bucket: those whose truncated timestamp is the bucket
key (this is the `GROUP BY period` grouping). -/
def bucketRecords (rows : List IndiceRow) (g p : Nat) : List IndiceRow :=
  rows.filter (fun r => decide (truncTo g r.timestamp = p))

/-- One row of the annotated values query: the bucket key and, per signal,
the `Min` / `Max` / `Avg` aggregates and the `current` subquery value. -/
structure BucketRow where
  period : Nat
  min_score_global : ℚ
  max_score_global : ℚ
  avg_score_global : ℚ
  current_score_global : ℚ
  min_score_temp : ℚ
  max_score_temp : ℚ
  avg_score_temp : ℚ
  current_score_temp : ℚ
  min_score_hum : ℚ
  max_score_hum : ℚ
  avg_score_hum : ℚ
  current_score_hum : ℚ
  min_score_air : ℚ
  max_score_air : ℚ
  avg_score_air : ℚ
  current_score_air : ℚ
  min_score_bruit : ℚ
  max_score_bruit : ℚ
  avg_score_bruit : ℚ
  current_score_bruit : ℚ
  min_score_lum : ℚ
  max_score_lum : ℚ
  avg_score_lum : ℚ
  current_score_lum : ℚ

/-- The annotated row for one bucket key `p`: the aggregates range over the
grouped queryset rows, while each `current` subquery ranges over all rows
of the salle whose timestamp lies in `[p, p + g)` (the subqueries are not
bounded by `now`) and picks the latest one. -/
def bucketFor (hist queryset : List IndiceRow) (g p : Nat) : BucketRow :=
  let grp := bucketRecords queryset g p
  let windowRows := hist.filter
    (fun r => decide (p ≤ r.timestamp) && decide (r.timestamp < p + g))
  let cur := latestRec windowRows
  { period := p
    min_score_global := colMin grp (fun r => r.score_global)
    max_score_global := colMax grp (fun r => r.score_global)
    avg_score_global := colAvg grp (fun r => r.score_global)
    current_score_global := ((cur.map (fun r => r.score_global)).getD 0)
    min_score_temp := colMin grp (fun r => r.score_temperature)
    max_score_temp := colMax grp (fun r => r.score_temperature)
    avg_score_temp := colAvg grp (fun r => r.score_temperature)
    current_score_temp := ((cur.map (fun r => r.score_temperature)).getD 0)
    min_score_hum := colMin grp (fun r => r.score_humidite)
    max_score_hum := colMax grp (fun r => r.score_humidite)
    avg_score_hum := colAvg grp (fun r => r.score_humidite)
    current_score_hum := ((cur.map (fun r => r.score_humidite)).getD 0)
    min_score_air := colMin grp (fun r => r.score_air)
    max_score_air := colMax grp (fun r => r.score_air)
    avg_score_air := colAvg grp (fun r => r.score_air)
    current_score_air := ((cur.map (fun r => r.score_air)).getD 0)
    min_score_bruit := colMin grp (fun r => r.score_bruit)
    max_score_bruit := colMax grp (fun r => r.score_bruit)
    avg_score_bruit := colAvg grp (fun r => r.score_bruit)
    current_score_bruit := ((cur.map (fun r => r.score_bruit)).getD 0)
    min_score_lum := colMin grp (fun r => r.score_luminosite)
    max_score_lum := colMax grp (fun r => r.score_luminosite)
    avg_score_lum := colAvg grp (fun r => r.score_luminosite)
    current_score_lum := ((cur.map (fun r => r.score_luminosite)).getD 0) }

/-- `get_comfort_evolution` from `core/services.py`: if the salle has no
comfort indices the result is empty; otherwise the queryset keeps rows with
timestamp in `[earliest, now]`, rows are grouped by truncated timestamp,
and the groups are emitted in ascending order of the bucket key. -/
def get_comfort_evolution (hist : List IndiceRow) (g now : Nat) :
    List BucketRow :=
  match (hist.map (fun r => r.timestamp)).min? with
  | none => []
  | some earliest =>
    let queryset := hist.filter
      (fun r => decide (earliest ≤ r.timestamp) && decide (r.timestamp ≤ now))
    let periods :=
      ((queryset.map (fun r => truncTo g r.timestamp)).dedup).insertionSort (· ≤ ·)
    periods.map (fun p => bucketFor hist queryset g p)

/-- The six signals carried by one comfort-index row. -/
def selOf : Fin 6 → IndiceRow → ℚ
  | ⟨0, _⟩ => fun r => r.score_global
  | ⟨1, _⟩ => fun r => r.score_temperature
  | ⟨2, _⟩ => fun r => r.score_humidite
  | ⟨3, _⟩ => fun r => r.score_air
  | ⟨4, _⟩ => fun r => r.score_bruit
  | ⟨5, _⟩ => fun r => r.score_luminosite

/-- The `min` column of a bucket row for each of the six signals. -/
def bMin : Fin 6 → BucketRow → ℚ
  | ⟨0, _⟩ => fun b => b.min_score_global
  | ⟨1, _⟩ => fun b => b.min_score_temp
  | ⟨2, _⟩ => fun b => b.min_score_hum
  | ⟨3, _⟩ => fun b => b.min_score_air
  | ⟨4, _⟩ => fun b => b.min_score_bruit
  | ⟨5, _⟩ => fun b => b.min_score_lum

/-- The `max` column of a bucket row for each of the six signals. -/
def bMax : Fin 6 → BucketRow → ℚ
  | ⟨0, _⟩ => fun b => b.max_score_global
  | ⟨1, _⟩ => fun b => b.max_score_temp
  | ⟨2, _⟩ => fun b => b.max_score_hum
  | ⟨3, _⟩ => fun b => b.max_score_air
  | ⟨4, _⟩ => fun b => b.max_score_bruit
  | ⟨5, _⟩ => fun b => b.max_score_lum

/-- The `avg` column of a bucket row for each of the six signals. -/
def bAvg : Fin 6 → BucketRow → ℚ
  | ⟨0, _⟩ => fun b => b.avg_score_global
  | ⟨1, _⟩ => fun b => b.avg_score_temp
  | ⟨2, _⟩ => fun b => b.avg_score_hum
  | ⟨3, _⟩ => fun b => b.avg_score_air
  | ⟨4, _⟩ => fun b => b.avg_score_bruit
  | ⟨5, _⟩ => fun b => b.avg_score_lum

/-- The `current` column of a bucket row for each of the six signals. -/
def bCur : Fin 6 → BucketRow → ℚ
  | ⟨0, _⟩ => fun b => b.current_score_global
  | ⟨1, _⟩ => fun b => b.current_score_temp
  | ⟨2, _⟩ => fun b => b.current_score_hum
  | ⟨3, _⟩ => fun b => b.current_score_air
  | ⟨4, _⟩ => fun b => b.current_score_bruit
  | ⟨5, _⟩ => fun b => b.current_score_lum

/-- The ordered list of bucket keys the query emits. -/
def periodsOf (rows : List IndiceRow) (g : Nat) : List Nat :=
  ((rows.map (fun r => truncTo g r.timestamp)).dedup).insertionSort (· ≤ ·)

/-! ## Proofs -/

lemma min_abs_below (a b v : ℚ) (hab : a ≤ b) (hv : v < a) :
    min |v - a| |v - b| = a - v := by
  have h1 : |v - a| = a - v := by rw [abs_of_neg (by linarith)]; ring
  have h2 : |v - b| = b - v := by rw [abs_of_neg (by linarith)]; ring
  rw [h1, h2]
  exact min_eq_left (by linarith)

lemma min_abs_above (a b v : ℚ) (hab : a ≤ b) (hv : b < v) :
    min |v - a| |v - b| = v - b := by
  have h1 : |v - a| = v - a := abs_of_pos (by linarith)
  have h2 : |v - b| = v - b := abs_of_pos (by linarith)
  rw [h1, h2]
  exact min_eq_right (by linarith)

/-- Shape lemma for the range-bounded branch of `calculate_parameter_score`. -/
lemma range_score (lo hi v s : ℚ) (hlohi : lo ≤ hi)
    (hs : s = if lo ≤ v ∧ v ≤ hi then 100
          else if v < lo then max 0 (100 - (lo - v) * 10)
          else max 0 (100 - (v - hi) * 10)) :
    ((lo ≤ v ∧ v ≤ hi) → s = 100)
    ∧ (¬ (lo ≤ v ∧ v ≤ hi) → s = max 0 (100 - min |v - lo| |v - hi| * 10))
    ∧ 0 ≤ s ∧ s ≤ 100 := by
  subst hs
  split_ifs with h1 h2
  · exact ⟨fun _ => rfl, fun h => absurd h1 h, by norm_num, by norm_num⟩
  · have hd : min |v - lo| |v - hi| = lo - v := min_abs_below lo hi v hlohi h2
    have h10 : (0:ℚ) ≤ (lo - v) * 10 := by nlinarith
    exact ⟨fun h => absurd h h1, fun _ => by rw [hd],
      le_max_left _ _, max_le (by norm_num) (by linarith)⟩
  · have hhi : hi < v := by
      push_neg at h1 h2
      exact h1 h2
    have hd : min |v - lo| |v - hi| = v - hi := min_abs_above lo hi v hlohi hhi
    have h10 : (0:ℚ) ≤ (v - hi) * 10 := by nlinarith
    exact ⟨fun h => absurd h h1, fun _ => by rw [hd],
      le_max_left _ _, max_le (by norm_num) (by linarith)⟩

/-- Shape lemma for the upper-bound-only branch of `calculate_parameter_score`. -/
lemma maxOnly_score (hi v s : ℚ)
    (hs : s = if v ≤ hi then 100 else max 0 (100 - (v - hi) * 10)) :
    (v ≤ hi → s = 100)
    ∧ (¬ v ≤ hi → s = max 0 (100 - |v - hi| * 10))
    ∧ 0 ≤ s ∧ s ≤ 100 := by
  subst hs
  split_ifs with h1
  · exact ⟨fun _ => rfl, fun h => absurd h1 h, by norm_num, by norm_num⟩
  · have hhi : hi < v := not_le.mp h1
    have hd : |v - hi| = v - hi := abs_of_pos (by linarith)
    have h10 : (0:ℚ) ≤ (v - hi) * 10 := by nlinarith
    exact ⟨fun h => absurd h h1, fun _ => by rw [hd],
      le_max_left _ _, max_le (by norm_num) (by linarith)⟩

/-- Claim C1: for every parameter and value, `calculate_parameter_score`
returns exactly 100 inside the comfort zone, and otherwise
`max 0 (100 - deviation * 10)` where the deviation is the distance to the
nearest zone boundary; the result always lies in [0, 100]. -/
theorem C1_parameter_score (value : ℚ) (param : Param) :
    (inZone param value = true → calculate_parameter_score value param = 100)
    ∧ (inZone param value = false →
        calculate_parameter_score value param
          = max 0 (100 - specDeviation param value * 10))
    ∧ 0 ≤ calculate_parameter_score value param
    ∧ calculate_parameter_score value param ≤ 100 := by
  cases param with
  | temperature =>
    have H := range_score 22 26 value (calculate_parameter_score value .temperature)
      (by norm_num) rfl
    refine ⟨fun h => H.1 (by simpa [inZone, THRESHOLDS] using h), fun h => ?_,
      H.2.2.1, H.2.2.2⟩
    have hn : ¬ (22 ≤ value ∧ value ≤ 26) := by
      intro hc
      simp [inZone, THRESHOLDS, hc.1, hc.2] at h
    rw [H.2.1 hn]
    simp [specDeviation, THRESHOLDS]
  | humidite =>
    have H := range_score 40 60 value (calculate_parameter_score value .humidite)
      (by norm_num) rfl
    refine ⟨fun h => H.1 (by simpa [inZone, THRESHOLDS] using h), fun h => ?_,
      H.2.2.1, H.2.2.2⟩
    have hn : ¬ (40 ≤ value ∧ value ≤ 60) := by
      intro hc
      simp [inZone, THRESHOLDS, hc.1, hc.2] at h
    rw [H.2.1 hn]
    simp [specDeviation, THRESHOLDS]
  | bruit =>
    have H := maxOnly_score 60 value (calculate_parameter_score value .bruit) rfl
    refine ⟨fun h => H.1 (by simpa [inZone, THRESHOLDS] using h), fun h => ?_,
      H.2.2.1, H.2.2.2⟩
    have hn : ¬ value ≤ 60 := by
      intro hc
      simp [inZone, THRESHOLDS, hc] at h
    rw [H.2.1 hn]
    simp [specDeviation, THRESHOLDS]
  | luminosite =>
    have H := range_score 300 500 value (calculate_parameter_score value .luminosite)
      (by norm_num) rfl
    refine ⟨fun h => H.1 (by simpa [inZone, THRESHOLDS] using h), fun h => ?_,
      H.2.2.1, H.2.2.2⟩
    have hn : ¬ (300 ≤ value ∧ value ≤ 500) := by
      intro hc
      simp [inZone, THRESHOLDS, hc.1, hc.2] at h
    rw [H.2.1 hn]
    simp [specDeviation, THRESHOLDS]
  | air =>
    have H := maxOnly_score 1000 value (calculate_parameter_score value .air) rfl
    refine ⟨fun h => H.1 (by simpa [inZone, THRESHOLDS] using h), fun h => ?_,
      H.2.2.1, H.2.2.2⟩
    have hn : ¬ value ≤ 1000 := by
      intro hc
      simp [inZone, THRESHOLDS, hc] at h
    rw [H.2.1 hn]
    simp [specDeviation, THRESHOLDS]

/-- Witness for C1: the inside and outside branches evaluated at concrete
inputs (24 inside the temperature zone, 30 outside it). -/
theorem C1_parameter_score_witness :
    calculate_parameter_score 24 Param.temperature = 100
    ∧ calculate_parameter_score 30 Param.temperature
        = max 0 (100 - specDeviation Param.temperature 30 * 10) := by
  constructor
  · exact (C1_parameter_score 24 Param.temperature).1 (by decide)
  · exact (C1_parameter_score 30 Param.temperature).2.1 (by decide)

/-- Claim C2: `calculate_global_score` is the fixed weighted sum
0.25, 0.20, 0.25, 0.20, 0.10 of the five scores; on inputs in [0,100] the
result lies in [0,100]; all scores 100 give exactly 100 and all scores 0
give exactly 0. -/
theorem C2_global_score (s : Scores)
    (h1 : 0 ≤ s.temperature ∧ s.temperature ≤ 100)
    (h2 : 0 ≤ s.humidite ∧ s.humidite ≤ 100)
    (h3 : 0 ≤ s.air ∧ s.air ≤ 100)
    (h4 : 0 ≤ s.bruit ∧ s.bruit ≤ 100)
    (h5 : 0 ≤ s.luminosite ∧ s.luminosite ≤ 100) :
    calculate_global_score s
      = 0.25 * s.temperature + 0.20 * s.humidite + 0.25 * s.air
        + 0.20 * s.bruit + 0.10 * s.luminosite
    ∧ 0 ≤ calculate_global_score s ∧ calculate_global_score s ≤ 100
    ∧ calculate_global_score ⟨100, 100, 100, 100, 100⟩ = 100
    ∧ calculate_global_score ⟨0, 0, 0, 0, 0⟩ = 0 := by
  obtain ⟨h1a, h1b⟩ := h1
  obtain ⟨h2a, h2b⟩ := h2
  obtain ⟨h3a, h3b⟩ := h3
  obtain ⟨h4a, h4b⟩ := h4
  obtain ⟨h5a, h5b⟩ := h5
  refine ⟨?_, ?_, ?_, by norm_num [calculate_global_score, WEIGHTS],
    by norm_num [calculate_global_score, WEIGHTS]⟩
  · simp only [calculate_global_score, WEIGHTS]
    ring
  · simp only [calculate_global_score, WEIGHTS]
    norm_num
    nlinarith
  · simp only [calculate_global_score, WEIGHTS]
    norm_num
    nlinarith

/-- Witness for C2 at the all-100 score vector. -/
theorem C2_global_score_witness :
    calculate_global_score ⟨100, 100, 100, 100, 100⟩ = 100 :=
  (C2_global_score ⟨100, 100, 100, 100, 100⟩
    (by norm_num) (by norm_num) (by norm_num) (by norm_num) (by norm_num)).2.2.2.1

/-- Claim C3: `determine_status` maps scores ≥ 70 to comfort, scores in
[40,70) to warning and scores < 40 to danger, with exact inclusive lower
boundaries; in particular 70 ↦ comfort, 69.999 ↦ warning, 40 ↦ warning,
39.999 ↦ danger. -/
theorem C3_status (x : ℚ) :
    (70 ≤ x → determine_status x = .comfort)
    ∧ (40 ≤ x → x < 70 → determine_status x = .warning)
    ∧ (x < 40 → determine_status x = .danger)
    ∧ determine_status 70 = .comfort
    ∧ determine_status 69.999 = .warning
    ∧ determine_status 40 = .warning
    ∧ determine_status 39.999 = .danger := by
  refine ⟨?_, ?_, ?_, by norm_num [determine_status], by norm_num [determine_status],
    by norm_num [determine_status], by norm_num [determine_status]⟩
  · intro h
    simp [determine_status, h]
  · intro h1 h2
    simp [determine_status, h1, not_le.mpr h2]
  · intro h
    have h70 : ¬ (70 ≤ x) := by linarith
    have h40 : ¬ (40 ≤ x) := by linarith
    simp [determine_status, h70, h40]

/-- Witness for C3 at the boundary score 70. -/
theorem C3_status_witness : determine_status 70 = Status.comfort :=
  (C3_status 70).1 (by norm_num)

lemma alertFor_type (q : Param) (v : ℚ) (a : Alerte) (h : alertFor q v = some a) :
    a.type = q := by
  cases q <;>
    simp only [alertFor, THRESHOLDS] at h <;>
    split_ifs at h <;>
    simp only [Option.some.injEq] at h <;>
    (subst h; rfl)

lemma alertFor_of_inZone (q : Param) (v : ℚ) (h : inZone q v = true) :
    alertFor q v = none := by
  cases q <;>
    simp only [inZone, THRESHOLDS, Bool.and_eq_true, decide_eq_true_eq] at h <;>
    simp only [alertFor, THRESHOLDS] <;>
    split_ifs <;>
    first
      | rfl
      | (exfalso; obtain ⟨h1, h2⟩ := h; linarith)
      | (exfalso; linarith)

lemma alertFor_of_out (q : Param) (v : ℚ) (h : inZone q v = false) :
    alertFor q v
      = some ⟨q, v, specSeuil q v, specNiveau q v, alertMessage q v (specSeuil q v)⟩ := by
  cases q <;>
    simp only [inZone, THRESHOLDS, Bool.and_eq_false_iff,
      decide_eq_false_iff_not, not_le] at h <;>
    simp only [alertFor, specSeuil, specNiveau, THRESHOLDS] <;>
    split_ifs <;>
    first
      | rfl
      | (exfalso; rcases h with h | h <;> linarith)
      | (exfalso; linarith)

lemma score_of_inZone (v : ℚ) (p : Param) (h : inZone p v = true) :
    calculate_parameter_score v p = 100 := by
  cases p <;>
    simp only [inZone, THRESHOLDS, Bool.and_eq_true, decide_eq_true_eq] at h <;>
    simp only [calculate_parameter_score, THRESHOLDS] <;>
    rw [if_pos h]

/-- The loop of `generate_alerts` unrolled over the five dict entries. -/
lemma generate_alerts_eq (m : Mesure) :
    generate_alerts m
      = (alertFor .temperature m.temperature).toList
        ++ (alertFor .humidite m.humidite).toList
        ++ (alertFor .air m.air).toList
        ++ (alertFor .bruit m.bruit).toList
        ++ (alertFor .luminosite m.luminosite).toList := by
  rcases h1 : alertFor Param.temperature m.temperature with _ | a1 <;>
  rcases h2 : alertFor Param.humidite m.humidite with _ | a2 <;>
  rcases h3 : alertFor Param.air m.air with _ | a3 <;>
  rcases h4 : alertFor Param.bruit m.bruit with _ | a4 <;>
  rcases h5 : alertFor Param.luminosite m.luminosite with _ | a5 <;>
    simp [generate_alerts, paramOrder, paramValue, h1, h2, h3, h4, h5]

lemma filter_toList_alertFor (q p : Param) (v : ℚ) :
    ((alertFor q v).toList).filter (fun a => decide (a.type = p))
      = if q = p then (alertFor q v).toList else [] := by
  rcases h : alertFor q v with _ | a
  · simp
  · have ht := alertFor_type q v a h
    by_cases hqp : q = p
    · subst hqp
      simp [ht]
    · simp [ht, hqp]

/-- The alerts of type `p` among the generated alerts are exactly the
candidate `alertFor` produces for `p`. -/
lemma filter_generate_alerts (m : Mesure) (p : Param) :
    (generate_alerts m).filter (fun a => decide (a.type = p))
      = (alertFor p (paramValue m p)).toList := by
  rw [generate_alerts_eq]
  simp only [List.filter_append, filter_toList_alertFor]
  cases p <;> simp [paramValue]

/-- Claim C4: for every out-of-range parameter, detection yields exactly one
candidate for it, whose threshold is the violated boundary (min if below,
max if above) and whose severity is warning within the tolerance band
(5 units for range parameters, 10 for the upper-bound-only ones) and danger
beyond it. -/
theorem C4_alert_candidates (m : Mesure) (p : Param)
    (h : inZone p (paramValue m p) = false) :
    ((generate_alerts m).filter (fun a => decide (a.type = p))).length = 1
    ∧ ∀ a ∈ generate_alerts m, a.type = p →
        a.valeur = paramValue m p
        ∧ a.seuil = specSeuil p (paramValue m p)
        ∧ a.niveau = specNiveau p (paramValue m p) := by
  have hf := filter_generate_alerts m p
  have ho := alertFor_of_out p (paramValue m p) h
  constructor
  · rw [hf, ho]
    rfl
  · intro a ha hat
    have hmem : a ∈ (generate_alerts m).filter (fun a => decide (a.type = p)) := by
      simp [List.mem_filter, ha, hat]
    rw [hf, ho] at hmem
    simp only [Option.toList_some, List.mem_singleton] at hmem
    subst hmem
    exact ⟨rfl, rfl, rfl⟩

/-- Witness for C4: a measurement with temperature 30 (above the max 26). -/
theorem C4_alert_candidates_witness :
    ((generate_alerts ⟨30, 50, 500, 55, 400⟩).filter
        (fun a => decide (a.type = Param.temperature))).length = 1 :=
  (C4_alert_candidates ⟨30, 50, 500, 55, 400⟩ Param.temperature (by decide)).1

/-- Claim C5: a reading with all five values inside their comfort zones
produces no alerts, and its comfort index has status comfort. -/
theorem C5_no_alerts_inside (m : Mesure)
    (h : ∀ p, inZone p (paramValue m p) = true) :
    generate_alerts m = []
    ∧ determine_status (calculate_global_score (scoresOf m)) = .comfort := by
  constructor
  · rw [generate_alerts_eq]
    have g1 : alertFor Param.temperature m.temperature = none :=
      alertFor_of_inZone _ _ (h Param.temperature)
    have g2 : alertFor Param.humidite m.humidite = none :=
      alertFor_of_inZone _ _ (h Param.humidite)
    have g3 : alertFor Param.air m.air = none :=
      alertFor_of_inZone _ _ (h Param.air)
    have g4 : alertFor Param.bruit m.bruit = none :=
      alertFor_of_inZone _ _ (h Param.bruit)
    have g5 : alertFor Param.luminosite m.luminosite = none :=
      alertFor_of_inZone _ _ (h Param.luminosite)
    simp [g1, g2, g3, g4, g5]
  · have e1 := score_of_inZone m.temperature .temperature (h Param.temperature)
    have e2 := score_of_inZone m.humidite .humidite (h Param.humidite)
    have e3 := score_of_inZone m.air .air (h Param.air)
    have e4 := score_of_inZone m.bruit .bruit (h Param.bruit)
    have e5 := score_of_inZone m.luminosite .luminosite (h Param.luminosite)
    simp only [scoresOf, e1, e2, e3, e4, e5]
    norm_num [calculate_global_score, WEIGHTS, determine_status]

/-- Witness for C5: a measurement inside every comfort zone. -/
theorem C5_no_alerts_inside_witness :
    generate_alerts ⟨24, 50, 500, 55, 400⟩ = [] :=
  (C5_no_alerts_inside ⟨24, 50, 500, 55, 400⟩
    (by intro p; cases p <;> decide)).1


lemma persist_steps_none_or_all (db : DB) (r : ReadingRec) (newId : Nat)
    (fp : FailPoint) (db2 : DB) (h : persist_steps db r newId fp = some db2) :
    db2.salles = db.salles
    ∧ db2.mesures = db.mesures ++ [⟨newId, r.salle, r.mesure, r.timestamp⟩]
    ∧ db2.indices = db.indices
        ++ [⟨newId, calculate_global_score (scoresOf r.mesure),
            determine_status (calculate_global_score (scoresOf r.mesure)),
            scoresOf r.mesure, r.timestamp⟩]
    ∧ db2.alertes = db.alertes
        ++ (generate_alerts r.mesure).map (fun a => ⟨newId, a⟩) := by
  unfold persist_steps at h
  split_ifs at h
  cases hfa : alertFail fp (generate_alerts r.mesure).length with
  | true => simp [hfa] at h
  | false =>
    simp only [hfa, Bool.false_eq_true, if_false, Option.some.injEq] at h
    subst h
    exact ⟨rfl, rfl, rfl, rfl⟩

/-- Claim C7: the writes of the measurement, its comfort index and its
alerts form one atomic unit: on success all three are appended together,
on any failure the state is unchanged, and no reachable state has a
measurement without its comfort index. -/
theorem C7_atomic_ingestion (db : DB) (now newId : Nat) (d : InputData)
    (fp : FailPoint) :
    ((collect_measurement db now newId d fp).2.isSome →
        (collect_measurement db now newId d fp).1 = db)
    ∧ ((collect_measurement db now newId d fp).2 = none →
        ∃ r, collect_validate db.salles now d = .ok r
          ∧ (collect_measurement db now newId d fp).1.mesures
              = db.mesures ++ [⟨newId, r.salle, r.mesure, r.timestamp⟩]
          ∧ (collect_measurement db now newId d fp).1.indices
              = db.indices ++ [⟨newId, calculate_global_score (scoresOf r.mesure),
                  determine_status (calculate_global_score (scoresOf r.mesure)),
                  scoresOf r.mesure, r.timestamp⟩]
          ∧ (collect_measurement db now newId d fp).1.alertes
              = db.alertes ++ (generate_alerts r.mesure).map (fun a => ⟨newId, a⟩))
    ∧ (noDangling db → noDangling (collect_measurement db now newId d fp).1) := by
  rcases hv : collect_validate db.salles now d with e | r
  · refine ⟨fun _ => ?_, fun hnone => ?_, fun hnd => ?_⟩ <;>
      simp_all [collect_measurement, hv]
  · rcases hp : persist_steps db r newId fp with _ | db2
    · refine ⟨fun _ => ?_, fun hnone => ?_, fun hnd => ?_⟩ <;>
        simp_all [collect_measurement, hv, hp]
    · obtain ⟨hs, hm, hi, ha⟩ := persist_steps_none_or_all db r newId fp db2 hp
      refine ⟨fun hsome => ?_, fun _ => ⟨r, rfl, ?_, ?_, ?_⟩, fun hnd => ?_⟩
      · simp [collect_measurement, hv, hp] at hsome
      · simp [collect_measurement, hv, hp, hm]
      · simp [collect_measurement, hv, hp, hi]
      · simp [collect_measurement, hv, hp, ha]
      · intro mm hmm
        simp only [collect_measurement, hv, hp] at hmm ⊢
        rw [hm] at hmm
        rw [hi]
        rcases List.mem_append.mp hmm with hold | hnew
        · obtain ⟨ic, hic, hide⟩ := hnd mm hold
          exact ⟨ic, List.mem_append_left _ hic, hide⟩
        · refine ⟨_, List.mem_append_right _ (List.mem_singleton_self _), ?_⟩
          simp only [List.mem_singleton] at hnew
          subst hnew
          rfl

/-- Witness for C7: a successful ingestion into a database holding room 1,
with an in-zone reading, appends the measurement. -/
theorem C7_atomic_ingestion_witness :
    (collect_measurement ⟨[1], [], [], []⟩ 10 1
        ⟨some (some 1), some 24, some 50, some 500, some 55, some 400, none⟩
        FailPoint.noFail).1.mesures
      = [⟨1, 1, ⟨24, 50, 500, 55, 400⟩, 10⟩] := by
  obtain ⟨r, hr, hm, -, -⟩ :=
    (C7_atomic_ingestion ⟨[1], [], [], []⟩ 10 1
      ⟨some (some 1), some 24, some 50, some 500, some 55, some 400, none⟩
      FailPoint.noFail).2.1 rfl
  have : r = ⟨1, ⟨24, 50, 500, 55, 400⟩, 10⟩ := by
    have hr2 : collect_validate [1] 10
        ⟨some (some 1), some 24, some 50, some 500, some 55, some 400, none⟩
        = .ok ⟨1, ⟨24, 50, 500, 55, 400⟩, 10⟩ := rfl
    rw [hr2] at hr
    injection hr with hr
    exact hr.symm
  rw [hm, this]
  rfl

/-- Claim C6 as stated is false: a payload with no `salle_id` key does not
fail — the code defaults the room id to 1, so the ingestion succeeds when
room 1 exists and even persists a measurement. -/
theorem C6_counterexample :
    (collect_measurement ⟨[1], [], [], []⟩ 10 1
        ⟨none, some 24, some 50, some 500, some 55, some 400, some 5⟩
        FailPoint.noFail).2 = none
    ∧ (collect_measurement ⟨[1], [], [], []⟩ 10 1
        ⟨none, some 24, some 50, some 500, some 55, some 400, some 5⟩
        FailPoint.noFail).1.mesures ≠ [] := by
  constructor
  · rfl
  · intro h
    simp [collect_measurement, collect_validate, effective_salle, mesureFields,
      persist_steps, alertFail] at h

/-- Claim C6, amended: a missing `salle_id` defaults to room 1; the
pipeline fails before any persistence when the room id it proceeds with is
null, 0, or not an existing room; and a missing timestamp defaults to the
current time. -/
theorem C6_validation (db : DB) (now newId : Nat) (d : InputData)
    (fp : FailPoint) :
    ((effective_salle d = none
        ∨ ∃ sid, effective_salle d = some sid ∧ (sid = 0 ∨ sid ∉ db.salles)) →
      (collect_measurement db now newId d fp).1 = db
      ∧ ((collect_measurement db now newId d fp).2 = some .valueError
          ∨ (collect_measurement db now newId d fp).2 = some .notFound))
    ∧ (d.salle_id? = none → effective_salle d = some 1)
    ∧ (∀ r, collect_validate db.salles now d = .ok r →
        d.timestamp? = none → r.timestamp = now) := by
  refine ⟨fun h => ?_, fun h => by simp [effective_salle, h], fun r hr hts => ?_⟩
  · have hcv : collect_validate db.salles now d = .error .valueError
        ∨ collect_validate db.salles now d = .error .notFound := by
      rcases h with h | ⟨sid, hs, h0 | hmem⟩
      · left
        simp [collect_validate, h]
      · left
        subst h0
        simp [collect_validate, hs]
      · by_cases h0 : sid = 0
        · left
          subst h0
          simp [collect_validate, hs]
        · right
          simp [collect_validate, hs, h0, hmem]
    rcases hcv with hcv | hcv <;>
      simp [collect_measurement, hcv]
  · rcases heff : effective_salle d with _ | sid
    · simp [collect_validate, heff] at hr
    · simp only [collect_validate, heff] at hr
      split_ifs at hr with h0 hmem
      rcases hmf : mesureFields d with _ | mf
      · simp [hmf] at hr
      · simp only [hmf, Except.ok.injEq] at hr
        subst hr
        simp [hts]

/-- Witness for the amended C6: a payload naming the missing room 2 leaves
an empty database unchanged. -/
theorem C6_validation_witness :
    (collect_measurement ⟨[], [], [], []⟩ 7 1
        ⟨some (some 2), some 1, some 1, some 1, some 1, some 1, none⟩
        FailPoint.noFail).1 = ⟨[], [], [], []⟩ :=
  ((C6_validation ⟨[], [], [], []⟩ 7 1
      ⟨some (some 2), some 1, some 1, some 1, some 1, some 1, none⟩
      FailPoint.noFail).1 (Or.inr ⟨2, rfl, Or.inr (by simp)⟩)).1

/-- Claim C10: the generated alert list is deterministic and lists its
candidates in the fixed dict order temperature, humidity, air, noise,
light, restricted to the out-of-range parameters. -/
theorem C10_alert_order (m : Mesure) :
    (generate_alerts m).map Alerte.type
      = paramOrder.filter (fun p => !(inZone p (paramValue m p))) := by
  rw [generate_alerts_eq]
  cases h1 : inZone Param.temperature m.temperature <;>
  cases h2 : inZone Param.humidite m.humidite <;>
  cases h3 : inZone Param.air m.air <;>
  cases h4 : inZone Param.bruit m.bruit <;>
  cases h5 : inZone Param.luminosite m.luminosite <;>
    simp [paramOrder, paramValue, h1, h2, h3, h4, h5,
      alertFor_of_inZone, alertFor_of_out]

lemma foldl_min_le (sel : IndiceRow → ℚ) (l : List IndiceRow) :
    ∀ acc : ℚ, l.foldl (fun a x => min a (sel x)) acc ≤ acc
      ∧ ∀ r ∈ l, l.foldl (fun a x => min a (sel x)) acc ≤ sel r := by
  induction l with
  | nil => intro acc; exact ⟨le_refl _, by simp⟩
  | cons x xs ih =>
    intro acc
    refine ⟨le_trans (ih (min acc (sel x))).1 (min_le_left _ _), ?_⟩
    intro r hr
    rcases List.mem_cons.mp hr with h | h
    · subst h
      exact le_trans (ih (min acc (sel r))).1 (min_le_right _ _)
    · exact (ih (min acc (sel x))).2 r h

lemma foldl_min_mem (sel : IndiceRow → ℚ) (l : List IndiceRow) :
    ∀ acc : ℚ, l.foldl (fun a x => min a (sel x)) acc = acc
      ∨ ∃ r ∈ l, l.foldl (fun a x => min a (sel x)) acc = sel r := by
  induction l with
  | nil => intro acc; exact Or.inl rfl
  | cons x xs ih =>
    intro acc
    rcases ih (min acc (sel x)) with h | ⟨r, hr, h⟩
    · rcases min_choice acc (sel x) with hm | hm
      · left
        rw [List.foldl_cons, h, hm]
      · right
        exact ⟨x, List.mem_cons_self x xs, by rw [List.foldl_cons, h, hm]⟩
    · right
      exact ⟨r, List.mem_cons_of_mem _ hr, h⟩

lemma foldl_max_le (sel : IndiceRow → ℚ) (l : List IndiceRow) :
    ∀ acc : ℚ, acc ≤ l.foldl (fun a x => max a (sel x)) acc
      ∧ ∀ r ∈ l, sel r ≤ l.foldl (fun a x => max a (sel x)) acc := by
  induction l with
  | nil => intro acc; exact ⟨le_refl _, by simp⟩
  | cons x xs ih =>
    intro acc
    refine ⟨le_trans (le_max_left _ _) (ih (max acc (sel x))).1, ?_⟩
    intro r hr
    rcases List.mem_cons.mp hr with h | h
    · subst h
      exact le_trans (le_max_right _ _) (ih (max acc (sel r))).1
    · exact (ih (max acc (sel x))).2 r h

lemma foldl_max_mem (sel : IndiceRow → ℚ) (l : List IndiceRow) :
    ∀ acc : ℚ, l.foldl (fun a x => max a (sel x)) acc = acc
      ∨ ∃ r ∈ l, l.foldl (fun a x => max a (sel x)) acc = sel r := by
  induction l with
  | nil => intro acc; exact Or.inl rfl
  | cons x xs ih =>
    intro acc
    rcases ih (max acc (sel x)) with h | ⟨r, hr, h⟩
    · rcases max_choice acc (sel x) with hm | hm
      · left
        rw [List.foldl_cons, h, hm]
      · right
        exact ⟨x, List.mem_cons_self x xs, by rw [List.foldl_cons, h, hm]⟩
    · right
      exact ⟨r, List.mem_cons_of_mem _ hr, h⟩

lemma colMin_spec (l : List IndiceRow) (sel : IndiceRow → ℚ) (h : l ≠ []) :
    (∃ r ∈ l, colMin l sel = sel r) ∧ ∀ r ∈ l, colMin l sel ≤ sel r := by
  cases l with
  | nil => exact absurd rfl h
  | cons x xs =>
    constructor
    · rcases foldl_min_mem sel xs (sel x) with h1 | ⟨r, hr, h1⟩
      · exact ⟨x, List.mem_cons_self x xs, h1⟩
      · exact ⟨r, List.mem_cons_of_mem _ hr, h1⟩
    · intro r hr
      rcases List.mem_cons.mp hr with h1 | h1
      · subst h1
        exact (foldl_min_le sel xs (sel r)).1
      · exact (foldl_min_le sel xs (sel x)).2 r h1

lemma colMax_spec (l : List IndiceRow) (sel : IndiceRow → ℚ) (h : l ≠ []) :
    (∃ r ∈ l, colMax l sel = sel r) ∧ ∀ r ∈ l, sel r ≤ colMax l sel := by
  cases l with
  | nil => exact absurd rfl h
  | cons x xs =>
    constructor
    · rcases foldl_max_mem sel xs (sel x) with h1 | ⟨r, hr, h1⟩
      · exact ⟨x, List.mem_cons_self x xs, h1⟩
      · exact ⟨r, List.mem_cons_of_mem _ hr, h1⟩
    · intro r hr
      rcases List.mem_cons.mp hr with h1 | h1
      · subst h1
        exact (foldl_max_le sel xs (sel r)).1
      · exact (foldl_max_le sel xs (sel x)).2 r h1

lemma foldl_latest_spec (l : List IndiceRow) :
    ∀ (acc : Option IndiceRow) (r0 : IndiceRow),
      l.foldl latestStep acc = some r0 →
      (acc = some r0 ∨ r0 ∈ l)
      ∧ (∀ x ∈ l, x.timestamp ≤ r0.timestamp)
      ∧ (∀ b, acc = some b → b.timestamp ≤ r0.timestamp) := by
  induction l with
  | nil =>
    intro acc r0 h
    simp only [List.foldl_nil] at h
    refine ⟨Or.inl h, by simp, fun b hb => ?_⟩
    rw [hb] at h
    injection h with h
    subst h
    exact le_refl _
  | cons x xs ih =>
    intro acc r0 h
    simp only [List.foldl_cons] at h
    obtain ⟨hmem, hall, hacc⟩ := ih (latestStep acc x) r0 h
    have hx : x.timestamp ≤ r0.timestamp := by
      cases acc with
      | none => exact hacc x rfl
      | some b =>
        by_cases hbx : b.timestamp < x.timestamp
        · exact hacc x (by simp [latestStep, hbx])
        · exact le_trans (le_of_not_lt hbx) (hacc b (by simp [latestStep, hbx]))
    refine ⟨?_, ?_, ?_⟩
    · rcases hmem with hm | hm
      · cases acc with
        | none =>
          right
          have hxr : x = r0 := by simpa [latestStep] using hm
          rw [← hxr]
          exact List.mem_cons_self x xs
        | some b =>
          by_cases hbx : b.timestamp < x.timestamp
          · right
            have hxr : x = r0 := by simpa [latestStep, hbx] using hm
            rw [← hxr]
            exact List.mem_cons_self x xs
          · left
            have hbr : b = r0 := by simpa [latestStep, hbx] using hm
            rw [hbr]
      · right
        exact List.mem_cons_of_mem _ hm
    · intro y hy
      rcases List.mem_cons.mp hy with h1 | h1
      · subst h1
        exact hx
      · exact hall y h1
    · intro b hb
      subst hb
      by_cases hbx : b.timestamp < x.timestamp
      · exact le_trans (le_of_lt hbx) (hacc x (by simp [latestStep, hbx]))
      · exact hacc b (by simp [latestStep, hbx])

lemma foldl_latest_isSome (l : List IndiceRow) :
    ∀ acc : IndiceRow, (l.foldl latestStep (some acc)).isSome := by
  induction l with
  | nil => intro acc; rfl
  | cons x xs ih =>
    intro acc
    simp only [List.foldl_cons, latestStep]
    split_ifs <;> exact ih _

lemma latestRec_isSome (l : List IndiceRow) (h : l ≠ []) :
    (latestRec l).isSome := by
  cases l with
  | nil => exact absurd rfl h
  | cons x xs => exact foldl_latest_isSome xs x

lemma latestRec_spec (l : List IndiceRow) (r0 : IndiceRow)
    (h : latestRec l = some r0) :
    r0 ∈ l ∧ ∀ x ∈ l, x.timestamp ≤ r0.timestamp := by
  obtain ⟨hmem, hall, -⟩ := foldl_latest_spec l none r0 h
  rcases hmem with hm | hm
  · exact absurd hm (by simp)
  · exact ⟨hm, hall⟩

lemma foldl_nat_min_le (l : List ℕ) :
    ∀ acc : ℕ, l.foldl min acc ≤ acc ∧ ∀ b ∈ l, l.foldl min acc ≤ b := by
  induction l with
  | nil => intro acc; exact ⟨le_refl _, by simp⟩
  | cons x xs ih =>
    intro acc
    refine ⟨le_trans (ih (min acc x)).1 (min_le_left _ _), ?_⟩
    intro b hb
    rcases List.mem_cons.mp hb with h | h
    · subst h
      exact le_trans (ih (min acc b)).1 (min_le_right _ _)
    · exact (ih (min acc x)).2 b h

lemma nat_min?_le {l : List ℕ} {a : ℕ} (h : l.min? = some a) :
    ∀ b ∈ l, a ≤ b := by
  cases l with
  | nil => simp [List.min?] at h
  | cons x xs =>
    simp only [List.min?, Option.some.injEq] at h
    subst h
    intro b hb
    rcases List.mem_cons.mp hb with h1 | h1
    · subst h1
      exact (foldl_nat_min_le xs b).1
    · exact (foldl_nat_min_le xs x).2 b h1

lemma truncTo_le (g ts : Nat) : truncTo g ts ≤ ts := Nat.div_mul_le_self ts g

lemma lt_truncTo_add (g ts : Nat) (hg : 0 < g) : ts < truncTo g ts + g := by
  have h1 := Nat.div_add_mod ts g
  have h2 := Nat.mod_lt ts hg
  calc ts = g * (ts / g) + ts % g := h1.symm
    _ < g * (ts / g) + g := Nat.add_lt_add_left h2 _
    _ = truncTo g ts + g := by unfold truncTo; ring

lemma truncTo_of_mult (g k : Nat) (hg : 0 < g) : truncTo g (k * g) = k * g := by
  unfold truncTo
  rw [Nat.mul_div_cancel k hg]

lemma truncTo_eq_iff (g p ts : Nat) (hg : 0 < g) (hp : truncTo g p = p) :
    truncTo g ts = p ↔ (p ≤ ts ∧ ts < p + g) := by
  constructor
  · intro h
    subst h
    exact ⟨truncTo_le g ts, lt_truncTo_add g ts hg⟩
  · rintro ⟨h1, h2⟩
    have hpd : p / g * g = p := hp
    have hdiv : ts / g = p / g := by
      apply Nat.div_eq_of_lt_le
      · rw [hpd]
        exact h1
      · rw [add_mul, one_mul, hpd]
        exact h2
    unfold truncTo
    rw [hdiv, hpd]

lemma decide_window (g p ts : Nat) (hg : 0 < g) (hp : truncTo g p = p) :
    decide (truncTo g ts = p) = (decide (p ≤ ts) && decide (ts < p + g)) := by
  by_cases h : truncTo g ts = p
  · obtain ⟨h1, h2⟩ := (truncTo_eq_iff g p ts hg hp).mp h
    simp [h, h1, h2]
  · have hna : ¬ (p ≤ ts ∧ ts < p + g) :=
      fun hc => h ((truncTo_eq_iff g p ts hg hp).mpr hc)
    rcases not_and_or.mp hna with h1 | h1 <;> simp [h, h1]

lemma mem_periodsOf {rows : List IndiceRow} {g p : Nat} :
    p ∈ periodsOf rows g ↔ ∃ r ∈ rows, truncTo g r.timestamp = p := by
  rw [periodsOf, (List.perm_insertionSort _ _).mem_iff, List.mem_dedup,
    List.mem_map]

lemma periodsOf_sorted (rows : List IndiceRow) (g : Nat) :
    (periodsOf rows g).Sorted (· < ·) := by
  have hs : (periodsOf rows g).Sorted (· ≤ ·) := List.sorted_insertionSort _ _
  have hn : (periodsOf rows g).Nodup :=
    ((List.perm_insertionSort _ _).nodup_iff).mpr (List.nodup_dedup _)
  exact (List.Pairwise.and hs hn).imp (fun h => lt_of_le_of_ne h.1 h.2)

lemma periodsOf_mult {rows : List IndiceRow} {g p : Nat}
    (hp : p ∈ periodsOf rows g) : ∃ k, p = k * g := by
  obtain ⟨r, -, h⟩ := mem_periodsOf.mp hp
  exact ⟨r.timestamp / g, h.symm⟩

/-- With all timestamps at or before `now`, the queryset filter keeps every
row, so the evolution query only depends on the history itself. -/
lemma get_comfort_evolution_eq (hist : List IndiceRow) (g now : Nat)
    (hnow : ∀ r ∈ hist, r.timestamp ≤ now) :
    get_comfort_evolution hist g now
      = (periodsOf hist g).map (fun p => bucketFor hist hist g p) := by
  cases hh : (hist.map (fun r => r.timestamp)).min? with
  | none =>
    have hnil : hist = [] := by
      cases hist with
      | nil => rfl
      | cons x xs => simp [List.min?] at hh
    subst hnil
    simp [get_comfort_evolution, periodsOf]
  | some earliest =>
    have hq : hist.filter
        (fun r => decide (earliest ≤ r.timestamp) && decide (r.timestamp ≤ now))
        = hist := by
      apply List.filter_eq_self.mpr
      intro r hr
      have h1 : earliest ≤ r.timestamp :=
        nat_min?_le hh _ (List.mem_map_of_mem _ hr)
      have h2 := hnow r hr
      simp [h1, h2]
    simp only [get_comfort_evolution, hh, hq, periodsOf]

/-- Claim C8: for every history whose timestamps are at or before `now`
and every positive granularity, each emitted bucket aggregates exactly the
records of its group: per signal, `min` and `max` are attained bounds,
`avg` is the sum divided by the count, and all six `current` values come
from one single record of the bucket with maximal timestamp; an empty
history yields an empty result, and a one-record bucket has
min = max = avg = current for every signal. -/
theorem C8_evolution_aggregates (hist : List IndiceRow) (g now : Nat)
    (hg : 0 < g) (hnow : ∀ r ∈ hist, r.timestamp ≤ now) :
    (hist = [] → get_comfort_evolution hist g now = [])
    ∧ (∀ B ∈ get_comfort_evolution hist g now,
        bucketRecords hist g B.period ≠ []
        ∧ (∀ i : Fin 6,
            (∃ r ∈ bucketRecords hist g B.period, bMin i B = selOf i r)
            ∧ (∀ r ∈ bucketRecords hist g B.period, bMin i B ≤ selOf i r)
            ∧ (∃ r ∈ bucketRecords hist g B.period, bMax i B = selOf i r)
            ∧ (∀ r ∈ bucketRecords hist g B.period, selOf i r ≤ bMax i B)
            ∧ bAvg i B = ((bucketRecords hist g B.period).map (selOf i)).sum
                / ((bucketRecords hist g B.period).length : ℚ))
        ∧ ∃ r0 ∈ bucketRecords hist g B.period,
            (∀ r ∈ bucketRecords hist g B.period, r.timestamp ≤ r0.timestamp)
            ∧ ∀ i : Fin 6, bCur i B = selOf i r0)
    ∧ (∀ B ∈ get_comfort_evolution hist g now, ∀ r,
        bucketRecords hist g B.period = [r] →
        ∀ i : Fin 6, bMin i B = selOf i r ∧ bMax i B = selOf i r
          ∧ bAvg i B = selOf i r ∧ bCur i B = selOf i r) := by
  have hev := get_comfort_evolution_eq hist g now hnow
  have hmain : ∀ B ∈ get_comfort_evolution hist g now,
      bucketRecords hist g B.period ≠ []
      ∧ (∀ i : Fin 6,
          (∃ r ∈ bucketRecords hist g B.period, bMin i B = selOf i r)
          ∧ (∀ r ∈ bucketRecords hist g B.period, bMin i B ≤ selOf i r)
          ∧ (∃ r ∈ bucketRecords hist g B.period, bMax i B = selOf i r)
          ∧ (∀ r ∈ bucketRecords hist g B.period, selOf i r ≤ bMax i B)
          ∧ bAvg i B = ((bucketRecords hist g B.period).map (selOf i)).sum
              / ((bucketRecords hist g B.period).length : ℚ))
      ∧ ∃ r0 ∈ bucketRecords hist g B.period,
          (∀ r ∈ bucketRecords hist g B.period, r.timestamp ≤ r0.timestamp)
          ∧ ∀ i : Fin 6, bCur i B = selOf i r0 := by
    intro B hB
    rw [hev] at hB
    obtain ⟨p, hp, hBe⟩ := List.mem_map.mp hB
    subst hBe
    obtain ⟨r, hr, htr⟩ := mem_periodsOf.mp hp
    have hne : bucketRecords hist g p ≠ [] := by
      apply List.ne_nil_of_mem (a := r)
      simp [bucketRecords, List.mem_filter, hr, htr]
    obtain ⟨k, hk⟩ := periodsOf_mult hp
    have hpfix : truncTo g p = p := by
      rw [hk]
      exact truncTo_of_mult g k hg
    have hwin : hist.filter
        (fun r => decide (p ≤ r.timestamp) && decide (r.timestamp < p + g))
        = bucketRecords hist g p := by
      unfold bucketRecords
      exact List.filter_congr
        (fun r _ => (decide_window g p r.timestamp hg hpfix).symm)
    have hsome := latestRec_isSome _ hne
    obtain ⟨r0, hr0⟩ := Option.isSome_iff_exists.mp hsome
    obtain ⟨hr0mem, hr0max⟩ := latestRec_spec _ _ hr0
    have hcur : latestRec (hist.filter
        (fun r => decide (p ≤ r.timestamp) && decide (r.timestamp < p + g)))
        = some r0 := by
      rw [hwin]
      exact hr0
    refine ⟨hne, ?_, r0, hr0mem, hr0max, ?_⟩
    · intro i
      fin_cases i <;>
        exact ⟨(colMin_spec _ _ hne).1, (colMin_spec _ _ hne).2,
          (colMax_spec _ _ hne).1, (colMax_spec _ _ hne).2, rfl⟩
    · intro i
      fin_cases i <;>
        simp [bCur, bucketFor, selOf, hcur]
  refine ⟨fun hnil => by subst hnil; rfl, hmain, ?_⟩
  intro B hB r hsingle i
  obtain ⟨hne, hstats, r0, hr0mem, hr0max, hcur⟩ := hmain B hB
  have hr0r : r0 = r := by
    rw [hsingle] at hr0mem
    simpa using hr0mem
  subst hr0r
  obtain ⟨⟨ra, hra, hminE⟩, -, ⟨rb, hrb, hmaxE⟩, -, havg⟩ := hstats i
  rw [hsingle] at hra hrb havg
  simp only [List.mem_singleton] at hra hrb
  subst hra
  subst hrb
  refine ⟨hminE, hmaxE, ?_, hcur i⟩
  rw [havg]
  simp

/-- Witness for C8: the empty history at granularity 3600. -/
theorem C8_evolution_aggregates_witness :
    get_comfort_evolution [] 3600 0 = [] :=
  (C8_evolution_aggregates [] 3600 0 (by norm_num)
    (by intro r hr; cases hr)).1 rfl

/-- Claim C9: the emitted bucket keys are truncated timestamps, strictly
ascending; the key intervals of width `g` do not overlap; only keys with at
least one record are emitted; and every record of the history falls into
exactly one emitted bucket interval. -/
theorem C9_evolution_buckets (hist : List IndiceRow) (g now : Nat)
    (hg : 0 < g) (hnow : ∀ r ∈ hist, r.timestamp ≤ now) :
    ((get_comfort_evolution hist g now).map (fun B => B.period)).Sorted (· < ·)
    ∧ (∀ B ∈ get_comfort_evolution hist g now,
        ∃ r ∈ hist, truncTo g r.timestamp = B.period)
    ∧ (∀ p q : Nat,
        p ∈ (get_comfort_evolution hist g now).map (fun B => B.period) →
        q ∈ (get_comfort_evolution hist g now).map (fun B => B.period) →
        p < q → p + g ≤ q)
    ∧ (∀ r ∈ hist, ∃! p,
        p ∈ (get_comfort_evolution hist g now).map (fun B => B.period)
        ∧ p ≤ r.timestamp ∧ r.timestamp < p + g) := by
  have hev := get_comfort_evolution_eq hist g now hnow
  have hmap : (get_comfort_evolution hist g now).map (fun B => B.period)
      = periodsOf hist g := by
    rw [hev, List.map_map]
    have hcomp : ((fun B : BucketRow => B.period)
        ∘ (fun p => bucketFor hist hist g p)) = id := by
      funext p
      rfl
    rw [hcomp, List.map_id]
  refine ⟨?_, ?_, ?_, ?_⟩
  · rw [hmap]
    exact periodsOf_sorted hist g
  · intro B hB
    rw [hev] at hB
    obtain ⟨p, hp, hBe⟩ := List.mem_map.mp hB
    obtain ⟨r, hr, htr⟩ := mem_periodsOf.mp hp
    subst hBe
    exact ⟨r, hr, htr⟩
  · intro p q hp hq hlt
    rw [hmap] at hp hq
    obtain ⟨k, hk⟩ := periodsOf_mult hp
    obtain ⟨k2, hk2⟩ := periodsOf_mult hq
    subst hk
    subst hk2
    have hkk : k < k2 := by
      by_contra hc
      push_neg at hc
      exact absurd hlt (not_lt.mpr (Nat.mul_le_mul_right g hc))
    calc k * g + g = (k + 1) * g := by ring
      _ ≤ k2 * g := Nat.mul_le_mul_right g hkk
  · intro r hr
    refine ⟨truncTo g r.timestamp, ⟨?_, ?_, ?_⟩, ?_⟩
    · rw [hmap]
      exact mem_periodsOf.mpr ⟨r, hr, rfl⟩
    · exact truncTo_le g r.timestamp
    · exact lt_truncTo_add g r.timestamp hg
    · rintro q ⟨hq, hq1, hq2⟩
      rw [hmap] at hq
      obtain ⟨k, hk⟩ := periodsOf_mult hq
      have hfix : truncTo g q = q := by
        rw [hk]
        exact truncTo_of_mult g k hg
      exact ((truncTo_eq_iff g q r.timestamp hg hfix).mpr ⟨hq1, hq2⟩).symm

/-- Witness for C9: a one-record history at granularity 3600. -/
theorem C9_evolution_buckets_witness :
    ((get_comfort_evolution [⟨100, 90, 80, 70, 60, 50, 40⟩] 3600 200).map
        (fun B => B.period)).Sorted (· < ·) :=
  (C9_evolution_buckets [⟨100, 90, 80, 70, 60, 50, 40⟩] 3600 200
    (by norm_num) (by intro r hr; simp at hr; rw [hr]; norm_num)).1

end Academix
